import Mathlib

/-!
# Verification of the `rings` package (axis renderer and Bézier control points)

A shallow embedding of `src/rings/axis.go` and `src/rings/bezier.go`.
Go `float64` / `vg.Length` values are modelled as real numbers; the
process-wide random source is modelled by passing each uniform sample as an
explicit argument, in the order the Go code draws them; canvas drawing is
modelled as the list of canvas calls the render emits.
-/

open Real

namespace Rings

/-- A 2-D Cartesian point, as in the companion geometry module. -/
structure Point where
  X : ℝ
  Y : ℝ

/-- Modelled from the spec: the companion coordinate-geometry module's
polar-to-rectangular projection of an angle and a radius ("Point: a 2-D
Cartesian coordinate (X, Y) produced by projecting an Angle and a radius",
with the round-trip property "projecting angle θ at radius r then computing
distance from origin returns r ... for r ≥ 0"). -/
noncomputable def Rectangular (θ : ℝ) (r : ℝ) : Point :=
  ⟨r * Real.cos θ, r * Real.sin θ⟩

/-- Modelled from the spec: the companion module's "complete turn" constant,
one full circle in radians. -/
noncomputable def Complete : ℝ := 2 * π

/-- Modelled from Go's `math.Hypot`: the Euclidean norm `sqrt (x² + y²)`. -/
noncomputable def hypot (x y : ℝ) : ℝ := Real.sqrt (x ^ 2 + y ^ 2)

/-- `LengthDist` of `bezier.go`: a base length with optional multiplier
bounds; a `none` bound is interpreted as 1. -/
structure LengthDist where
  Length : ℝ
  Min : Option ℝ
  Max : Option ℝ

/-- `LengthDist.Perturb` of `bezier.go` lines 24-36. -/
def LengthDist.Perturb (p : LengthDist) (f : ℝ) : ℝ :=
  if p.Min.isNone && p.Max.isNone then p.Length
  else
    let min := p.Min.getD 1
    let max := p.Max.getD 1
    p.Length * (min + (max - min) * f)

/-- `FactorDist` of `bezier.go`: a base factor with optional multiplier
bounds; a `none` bound is interpreted as 1. -/
structure FactorDist where
  Factor : ℝ
  Min : Option ℝ
  Max : Option ℝ

/-- `FactorDist.Perturb` of `bezier.go` lines 46-58. -/
def FactorDist.Perturb (p : FactorDist) (f : ℝ) : ℝ :=
  if p.Min.isNone && p.Max.isNone then p.Factor
  else
    let min := p.Min.getD 1
    let max := p.Max.getD 1
    p.Factor * (min + (max - min) * f)

/-- `Bezier` of `bezier.go`: curve configuration. A `none` Crest or Purity
disables that perturbation. -/
structure Bezier where
  Segments : ℤ
  Radius : LengthDist
  Crest : Option FactorDist
  Purity : Option FactorDist

/-- The bisecting angle of `ControlPoints` (`bezier.go` lines 92-97): the
wrapped formula when the absolute angular difference exceeds π, otherwise
the plain average. -/
noncomputable def bisectAngle (a0 a1 : ℝ) : ℝ :=
  if |a1 - a0| > π then (a0 + a1 + 2 * π) / 2 - 2 * π
  else (a1 + a0) / 2

/-- The working radius distribution of `ControlPoints` (`bezier.go` lines
86-90): `b.Radius`, with its base length purity-adjusted when `Purity` is
configured.  `u1` is the uniform sample drawn for the purity factor. -/
noncomputable def workingRadius (b : Bezier) (a0 a1 r0 r1 u1 : ℝ) : LengthDist :=
  match b.Purity with
  | none => b.Radius
  | some pu =>
    let p0 := Rectangular a0 r0
    let p1 := Rectangular a1 r1
    let bisectRadius := hypot ((p0.X + p1.X) / 2) ((p0.Y + p1.Y) / 2)
    { b.Radius with
      Length := b.Radius.Length + (pu.Perturb u1 - 1) * (b.Radius.Length - bisectRadius) }

/-- `Bezier.ControlPoints` of `bezier.go` lines 80-122.  `u1`, `u2`, `u3`
are the uniform samples the Go code draws for purity, the midpoint radius
and crest, in that order; a sample is ignored when its perturbation is not
configured. -/
noncomputable def Bezier.ControlPoints (b : Bezier) (a0 a1 r0 r1 u1 u2 u3 : ℝ) :
    List Point :=
  let p0 := Rectangular a0 r0
  let p1 := Rectangular a1 r1
  let radius := workingRadius b a0 a1 r0 r1 u1
  let mid := Rectangular (bisectAngle a0 a1) (radius.Perturb u2)
  match b.Crest with
  | some crest =>
    let c := crest.Perturb u3
    [p0,
     Rectangular a0 (r0 - (r0 - radius.Length) * c),
     mid,
     Rectangular a1 (r1 - (r1 - radius.Length) * c),
     p1]
  | none => [p0, mid, p1]

/-! ## The axis renderer (`axis.go`)

Colours are modelled as `Option Unit` (`none` is Go's nil colour); only the
presence tests the code performs matter.  A canvas is modelled by the list
of calls the render issues on it, and the arc-lookup collaborator by a
function into `Except`, whose `error` case is the Go error that
`Axis.drawAt` turns into a panic. -/

/-- `draw.LineStyle`, restricted to the fields `axis.go` reads. -/
structure LineStyle where
  Color : Option Unit
  Width : ℝ

/-- `draw.TextStyle`, restricted to the fields `axis.go` reads. -/
structure TextStyle where
  Color : Option Unit

/-- Modelled from the spec: a tick mark produced by the external tick
source, "each with a value, a label, and a major/minor flag". -/
structure Tick where
  Value : ℝ
  Label : String
  Minor : Bool

/-- A placement rule: axis angle to (rotation, x-align, y-align). -/
abbrev TextPlacement : Type := ℝ → ℝ × ℝ × ℝ

/-- An angular span returned by the arc lookup. -/
structure Arc where
  Theta : ℝ
  Phi : ℝ

/-- `TickConfig` of `axis.go` lines 49-69.  `Marker` is the external tick
source as a function of the axis range. -/
structure TickConfig where
  Label : TextStyle
  LineStyle : Rings.LineStyle
  Placement : Option TextPlacement
  Length : ℝ
  Marker : ℝ → ℝ → List Tick

/-- `AxisLabel` of `axis.go` lines 36-46. -/
structure AxisLabel where
  Text : String
  TextStyle : Rings.TextStyle
  Placement : Option TextPlacement

/-- `Axis` of `axis.go` lines 18-33. -/
structure Axis where
  Angle : ℝ
  Label : AxisLabel
  LineStyle : Rings.LineStyle
  Tick : TickConfig
  Grid : Rings.LineStyle

/-- A path component recorded into a `vg.Path` before it is stroked. -/
inductive PathComp where
  | Move (x y : ℝ)
  | Line (x y : ℝ)
  | Arc (x y rad start angle : ℝ)

/-- One canvas call issued by the render. -/
inductive CanvasOp where
  | SetLineStyle (s : LineStyle)
  | Stroke (p : List PathComp)
  | FillText (sty : TextStyle) (x y xalign yalign : ℝ) (text : String)
  | Push
  | Translate (x y : ℝ)
  | Rotate (a : ℝ)
  | Pop

/-- The tick scale of `axis.go` line 82: `(outer - inner) / (max - min)`. -/
noncomputable def tickScale (inner outer mn mx : ℝ) : ℝ :=
  (outer - inner) / (mx - mn)

/-- The radius at which a tick mark is placed (`axis.go` lines 102 and
136): `(mark.Value - min) * scale + inner`. -/
noncomputable def markRadius (inner scale mn v : ℝ) : ℝ :=
  (v - mn) * scale + inner

/-- The grid-pass canvas calls for one resolved feature location
(`axis.go` lines 94-109): set the grid line style, then stroke one arc per
in-range tick mark. -/
noncomputable def gridOpsForLoc (r : Axis) (cen : Point) (arc : Arc)
    (inner scale mn mx : ℝ) (marks : List Tick) : List CanvasOp :=
  CanvasOp.SetLineStyle r.Grid ::
  marks.filterMap (fun mark =>
    if mark.Value < mn ∨ mx < mark.Value then none
    else
      let radius := markRadius inner scale mn mark.Value
      let e := Rectangular arc.Theta radius
      some (CanvasOp.Stroke
        [PathComp.Move (cen.X + e.X) (cen.Y + e.Y),
         PathComp.Arc cen.X cen.Y radius arc.Theta arc.Phi]))

/-- The grid pass over the distinct feature locations (`axis.go` lines
88-110): resolving a location may fail, in which case the render panics
with a message built from the lookup error and no further canvas call is
made. -/
noncomputable def gridLoop {Loc : Type} (r : Axis) (cen : Point)
    (base : Loc → Except String Arc) (inner scale mn mx : ℝ)
    (marks : List Tick) : List Loc → List CanvasOp × Option String
  | [] => ([], none)
  | loc :: locs =>
    match base loc with
    | Except.error err => ([], some ("rings: no arc for feature location:" ++ err))
    | Except.ok arc =>
      let rest := gridLoop r cen base inner scale mn mx marks locs
      (gridOpsForLoc r cen arc inner scale mn mx marks ++ rest.1, rest.2)

/-- The spine pass (`axis.go` lines 113-123). -/
noncomputable def spineOps (r : Axis) (cen : Point) (inner outer : ℝ) :
    List CanvasOp :=
  if r.LineStyle.Color.isSome ∧ r.LineStyle.Width ≠ 0 then
    let e0 := Rectangular r.Angle inner
    let e1 := Rectangular r.Angle outer
    [CanvasOp.SetLineStyle r.LineStyle,
     CanvasOp.Stroke
       [PathComp.Move (cen.X + e0.X) (cen.Y + e0.Y),
        PathComp.Line (cen.X + e1.X) (cen.Y + e1.Y)]]
  else []

/-- Text drawing with the rotation bracket of `axis.go` lines 167-176 and
193-202: a nonzero rotation is wrapped in Push / Translate / Rotate /
Translate back / FillText / Pop. -/
noncomputable def textOps (sty : TextStyle) (rot x y xalign yalign : ℝ)
    (s : String) : List CanvasOp :=
  if rot ≠ 0 then
    [CanvasOp.Push, CanvasOp.Translate x y, CanvasOp.Rotate rot,
     CanvasOp.Translate (-x) (-y),
     CanvasOp.FillText sty x y xalign yalign s, CanvasOp.Pop]
  else [CanvasOp.FillText sty x y xalign yalign s]

/-- The tick-pass canvas calls for one tick mark (`axis.go` lines
130-177): nothing for an out-of-range mark; a radial segment, followed for
labelled major marks by the label text. -/
noncomputable def tickOpsForMark (r : Axis) (cen : Point)
    (inner scale mn mx : ℝ) (dp : TextPlacement) (mark : Tick) :
    List CanvasOp :=
  if mark.Value < mn ∨ mx < mark.Value then []
  else
    let radius := markRadius inner scale mn mark.Value
    let length := if mark.Minor then r.Tick.Length / 2 else r.Tick.Length
    let off := Rectangular (r.Angle + Complete / 4) length
    let e := Rectangular r.Angle radius
    let seg := CanvasOp.Stroke
      [PathComp.Move (cen.X + e.X) (cen.Y + e.Y),
       PathComp.Line (cen.X + (e.X + off.X)) (cen.Y + (e.Y + off.Y))]
    if mark.Minor ∨ r.Tick.Label.Color.isNone then [seg]
    else
      let e2 := Rectangular r.Angle radius
      let x := (e2.X + off.X * 2) + cen.X
      let y := (e2.Y + off.Y * 2) + cen.Y
      let pl := match r.Tick.Placement with
        | none => dp r.Angle
        | some p => p r.Angle
      seg :: textOps r.Tick.Label pl.1 x y pl.2.1 pl.2.2 mark.Label

/-- The tick pass (`axis.go` lines 125-178). -/
noncomputable def tickOps (r : Axis) (cen : Point) (inner scale mn mx : ℝ)
    (dp : TextPlacement) (marks : List Tick) : List CanvasOp :=
  if r.Tick.LineStyle.Color.isSome ∧ r.Tick.LineStyle.Width ≠ 0 ∧
      r.Tick.Length ≠ 0 then
    CanvasOp.SetLineStyle r.Tick.LineStyle ::
      marks.flatMap (tickOpsForMark r cen inner scale mn mx dp)
  else []

/-- The axis-label pass (`axis.go` lines 180-203). -/
noncomputable def labelOps (r : Axis) (cen : Point) (inner outer : ℝ)
    (dp : TextPlacement) : List CanvasOp :=
  if r.Label.Text ≠ "" ∧ r.Label.TextStyle.Color.isSome then
    let e := Rectangular r.Angle ((inner + outer) / 2)
    let x := e.X + cen.X
    let y := e.Y + cen.Y
    let pl := match r.Label.Placement with
      | none => dp r.Angle
      | some p => p r.Angle
    textOps r.Label.TextStyle pl.1 x y pl.2.1 pl.2.2 r.Label.Text
  else []

/-- `Axis.drawAt` of `axis.go` lines 73-204.  `fs` is the list of the
features' locations (each `Scorer`'s `Location()`), deduplicated as the Go
`locMap` is; `dp` is the external `DefaultPlacement` rule.  The result is
the list of canvas calls issued, paired with the panic message if the
grid pass aborted on an unresolved location. -/
noncomputable def Axis.drawAt {Loc : Type} [DecidableEq Loc] (r : Axis)
    (cen : Point) (fs : List Loc) (base : Loc → Except String Arc)
    (inner outer mn mx : ℝ) (dp : TextPlacement) :
    List CanvasOp × Option String :=
  let locs := fs.dedup
  let scale := tickScale inner outer mn mx
  let marks := r.Tick.Marker mn mx
  let g :=
    if r.Grid.Color.isSome ∧ r.Grid.Width ≠ 0 then
      gridLoop r cen base inner scale mn mx marks locs
    else ([], none)
  match g.2 with
  | some e => (g.1, some e)
  | none =>
    (g.1 ++ spineOps r cen inner outer ++
       tickOps r cen inner scale mn mx dp marks ++
       labelOps r cen inner outer dp,
     none)

/-- Recognises a canvas `Push`. -/
def isPush : CanvasOp → Bool
  | CanvasOp.Push => true
  | _ => false

/-- Recognises a canvas `Pop`. -/
def isPop : CanvasOp → Bool
  | CanvasOp.Pop => true
  | _ => false

/-- A trace is balanced when it has as many `Push`es as `Pop`s. -/
def balanced (l : List CanvasOp) : Prop :=
  l.countP isPush = l.countP isPop


/-! ## The radii passed to the polar-to-rectangular projection -/

/-- The radii `ControlPoints` passes to `Rectangular`, in call order
(mirrors `Bezier.ControlPoints`): the two endpoint radii (`bezier.go` line
83), the perturbed working radius for the midpoint (line 98), and, when
crest is configured, the two shoulder radii (line 111). -/
noncomputable def controlPointsProjRadii (b : Bezier)
    (a0 a1 r0 r1 u1 u2 u3 : ℝ) : List ℝ :=
  let radius := workingRadius b a0 a1 r0 r1 u1
  [r0, r1, radius.Perturb u2] ++
  (match b.Crest with
   | some crest =>
     let c := crest.Perturb u3
     [r0 - (r0 - radius.Length) * c, r1 - (r1 - radius.Length) * c]
   | none => [])

/-- The radii the grid pass passes to `Rectangular` for one resolved
location (mirrors `gridOpsForLoc`): one scaled radius per in-range mark
(`axis.go` line 104). -/
noncomputable def gridProjForLoc (inner scale mn mx : ℝ)
    (marks : List Tick) : List ℝ :=
  marks.filterMap fun mark =>
    if mark.Value < mn ∨ mx < mark.Value then none
    else some (markRadius inner scale mn mark.Value)

/-- The radii of the whole grid pass (mirrors `gridLoop`). -/
noncomputable def gridProjLoop {Loc : Type} (base : Loc → Except String Arc)
    (inner scale mn mx : ℝ) (marks : List Tick) :
    List Loc → List ℝ × Option Unit
  | [] => ([], none)
  | loc :: locs =>
    match base loc with
    | Except.error _ => ([], some ())
    | Except.ok _ =>
      let rest := gridProjLoop base inner scale mn mx marks locs
      (gridProjForLoc inner scale mn mx marks ++ rest.1, rest.2)

/-- The radii `Axis.drawAt` passes to `Rectangular`, in call order
(mirrors `Axis.drawAt`): the grid-pass radii, and — unless the grid pass
aborted — the spine endpoints (`axis.go` lines 116, 118), per in-range
mark the tick offset length and scaled radius (lines 144-145) plus the
scaled radius again for a drawn label (line 155), and the label midpoint
radius (line 181). -/
noncomputable def drawAtProjRadii {Loc : Type} [DecidableEq Loc] (r : Axis)
    (fs : List Loc) (base : Loc → Except String Arc)
    (inner outer mn mx : ℝ) : List ℝ :=
  let locs := fs.dedup
  let scale := tickScale inner outer mn mx
  let marks := r.Tick.Marker mn mx
  let g :=
    if r.Grid.Color.isSome ∧ r.Grid.Width ≠ 0 then
      gridProjLoop base inner scale mn mx marks locs
    else ([], none)
  match g.2 with
  | some _ => g.1
  | none =>
    g.1 ++
    (if r.LineStyle.Color.isSome ∧ r.LineStyle.Width ≠ 0 then
      [inner, outer] else []) ++
    (if r.Tick.LineStyle.Color.isSome ∧ r.Tick.LineStyle.Width ≠ 0 ∧
        r.Tick.Length ≠ 0 then
      marks.flatMap fun mark =>
        if mark.Value < mn ∨ mx < mark.Value then []
        else
          let length := if mark.Minor then r.Tick.Length / 2 else r.Tick.Length
          [length, markRadius inner scale mn mark.Value] ++
          (if mark.Minor ∨ r.Tick.Label.Color.isNone then []
           else [markRadius inner scale mn mark.Value])
    else []) ++
    (if r.Label.Text ≠ "" ∧ r.Label.TextStyle.Color.isSome then
      [(inner + outer) / 2] else [])

/-! ## Concrete configurations used to instantiate the theorems -/

/-- A Bézier configuration with neither crest nor purity. -/
noncomputable def bPlain : Bezier := ⟨1, ⟨5, none, none⟩, none, none⟩

/-- A Bézier configuration with purity configured. -/
noncomputable def bPur : Bezier := ⟨1, ⟨5, none, none⟩, none, some ⟨2, none, none⟩⟩

/-- An axis whose grid is styled and everything else unset. -/
noncomputable def axGrid : Axis :=
  ⟨0, ⟨"", ⟨none⟩, none⟩, ⟨none, 0⟩, ⟨⟨none⟩, ⟨none, 0⟩, none, 0, fun _ _ => []⟩,
   ⟨some (), 1⟩⟩

/-- An axis with a styled spine and everything else unset. -/
noncomputable def axSpine : Axis :=
  ⟨0, ⟨"", ⟨none⟩, none⟩, ⟨some (), 1⟩, ⟨⟨none⟩, ⟨none, 0⟩, none, 0, fun _ _ => []⟩,
   ⟨none, 0⟩⟩

/-- An axis with nothing styled. -/
noncomputable def axPlain : Axis :=
  ⟨0, ⟨"", ⟨none⟩, none⟩, ⟨none, 0⟩, ⟨⟨none⟩, ⟨none, 0⟩, none, 0, fun _ _ => []⟩,
   ⟨none, 0⟩⟩

/-- The trivial placement rule. -/
noncomputable def dpZero : TextPlacement := fun _ => (0, 0, 0)

/-! ## Helper lemmas about the passes -/

/-- Pre-filtering a mark list to its in-range marks does not change a
`filterMap` that already maps out-of-range marks to `none`. -/
theorem filter_filterMap_inRange {β : Type} (mn mx : ℝ) (f : Tick → Option β)
    (hf : ∀ t, t.Value < mn ∨ mx < t.Value → f t = none) :
    ∀ l : List Tick,
      ((l.filter fun t => if t.Value < mn ∨ mx < t.Value then false else true).filterMap f)
        = l.filterMap f
  | [] => rfl
  | t :: l => by
    by_cases h : t.Value < mn ∨ mx < t.Value
    · simp only [List.filter_cons, if_pos h, if_neg (by simp : ¬(false = true)),
        List.filterMap_cons, hf t h, filter_filterMap_inRange mn mx f hf l]
    · rw [List.filter_cons, if_neg h, if_pos rfl, List.filterMap_cons,
        List.filterMap_cons, filter_filterMap_inRange mn mx f hf l]

/-- Pre-filtering a mark list to its in-range marks does not change a
`flatMap` that already maps out-of-range marks to `[]`. -/
theorem filter_flatMap_inRange {β : Type} (mn mx : ℝ) (g : Tick → List β)
    (hg : ∀ t, t.Value < mn ∨ mx < t.Value → g t = []) :
    ∀ l : List Tick,
      ((l.filter fun t => if t.Value < mn ∨ mx < t.Value then false else true).flatMap g)
        = l.flatMap g
  | [] => rfl
  | t :: l => by
    by_cases h : t.Value < mn ∨ mx < t.Value
    · simp only [List.filter_cons, if_pos h, if_neg (by simp : ¬(false = true)),
        List.flatMap_cons, hg t h, filter_flatMap_inRange mn mx g hg l,
        List.nil_append]
    · rw [List.filter_cons, if_neg h, if_pos rfl, List.flatMap_cons,
        List.flatMap_cons, filter_flatMap_inRange mn mx g hg l]

/-- An out-of-range mark contributes nothing to the tick pass. -/
theorem tickOpsForMark_out_of_range (r : Axis) (cen : Point)
    (inner scale mn mx : ℝ) (dp : TextPlacement) (mark : Tick)
    (h : mark.Value < mn ∨ mx < mark.Value) :
    tickOpsForMark r cen inner scale mn mx dp mark = [] := by
  unfold tickOpsForMark; rw [if_pos h]

/-- `gridOpsForLoc` only reads the grid style of the axis and ignores
out-of-range marks, so it is unchanged by pre-filtering the marks. -/
theorem gridOpsForLoc_congr_filter (r r' : Axis) (cen : Point) (arc : Arc)
    (inner scale mn mx : ℝ) (marks : List Tick) (hg : r'.Grid = r.Grid) :
    gridOpsForLoc r' cen arc inner scale mn mx
        (marks.filter fun t => if t.Value < mn ∨ mx < t.Value then false else true)
      = gridOpsForLoc r cen arc inner scale mn mx marks := by
  unfold gridOpsForLoc
  rw [hg, filter_filterMap_inRange]
  intro t ht
  rw [if_pos ht]

/-- The grid pass is unchanged by pre-filtering the marks. -/
theorem gridLoop_congr_filter {Loc : Type} (r r' : Axis) (cen : Point)
    (base : Loc → Except String Arc) (inner scale mn mx : ℝ)
    (marks : List Tick) (hg : r'.Grid = r.Grid) :
    ∀ locs : List Loc,
      gridLoop r' cen base inner scale mn mx
          (marks.filter fun t => if t.Value < mn ∨ mx < t.Value then false else true) locs
        = gridLoop r cen base inner scale mn mx marks locs
  | [] => rfl
  | loc :: locs => by
    cases hb : base loc with
    | error e => simp only [gridLoop, hb]
    | ok arc =>
      simp only [gridLoop, hb,
        gridLoop_congr_filter r r' cen base inner scale mn mx marks hg locs,
        gridOpsForLoc_congr_filter r r' cen arc inner scale mn mx marks hg]

/-- The spine pass depends only on the axis angle and line style. -/
theorem spineOps_congr (r r' : Axis) (cen : Point) (inner outer : ℝ)
    (hA : r'.Angle = r.Angle) (hL : r'.LineStyle = r.LineStyle) :
    spineOps r' cen inner outer = spineOps r cen inner outer := by
  unfold spineOps; rw [hA, hL]

/-- The per-mark tick pass does not read the marker. -/
theorem tickOpsForMark_congr (r r' : Axis) (cen : Point)
    (inner scale mn mx : ℝ) (dp : TextPlacement)
    (hA : r'.Angle = r.Angle) (hLen : r'.Tick.Length = r.Tick.Length)
    (hLab : r'.Tick.Label = r.Tick.Label)
    (hPl : r'.Tick.Placement = r.Tick.Placement) :
    tickOpsForMark r' cen inner scale mn mx dp
      = tickOpsForMark r cen inner scale mn mx dp := by
  funext mark
  unfold tickOpsForMark
  rw [hA, hLen, hLab, hPl]

/-- The tick pass is unchanged by pre-filtering the marks. -/
theorem tickOps_congr_filter (r r' : Axis) (cen : Point)
    (inner scale mn mx : ℝ) (dp : TextPlacement) (marks : List Tick)
    (hA : r'.Angle = r.Angle) (hT : r'.Tick.LineStyle = r.Tick.LineStyle)
    (hLen : r'.Tick.Length = r.Tick.Length)
    (hLab : r'.Tick.Label = r.Tick.Label)
    (hPl : r'.Tick.Placement = r.Tick.Placement) :
    tickOps r' cen inner scale mn mx dp
        (marks.filter fun t => if t.Value < mn ∨ mx < t.Value then false else true)
      = tickOps r cen inner scale mn mx dp marks := by
  unfold tickOps
  rw [hT, hLen, tickOpsForMark_congr r r' cen inner scale mn mx dp hA hLen hLab hPl,
    filter_flatMap_inRange mn mx _
      (tickOpsForMark_out_of_range r cen inner scale mn mx dp)]

/-- The axis-label pass depends only on the axis angle and label. -/
theorem labelOps_congr (r r' : Axis) (cen : Point) (inner outer : ℝ)
    (dp : TextPlacement) (hA : r'.Angle = r.Angle) (hL : r'.Label = r.Label) :
    labelOps r' cen inner outer dp = labelOps r cen inner outer dp := by
  unfold labelOps; rw [hA, hL]

/-- A render whose tick source pre-discards out-of-range marks, but whose
styling fields all agree, draws exactly the same trace. -/
theorem drawAt_congr_filter {Loc : Type} [DecidableEq Loc] (r r' : Axis)
    (cen : Point) (fs : List Loc) (base : Loc → Except String Arc)
    (inner outer mn mx : ℝ) (dp : TextPlacement)
    (hA : r'.Angle = r.Angle) (hLab : r'.Label = r.Label)
    (hLS : r'.LineStyle = r.LineStyle) (hG : r'.Grid = r.Grid)
    (hTLS : r'.Tick.LineStyle = r.Tick.LineStyle)
    (hTLen : r'.Tick.Length = r.Tick.Length)
    (hTLab : r'.Tick.Label = r.Tick.Label)
    (hTPl : r'.Tick.Placement = r.Tick.Placement)
    (hM : r'.Tick.Marker mn mx = (r.Tick.Marker mn mx).filter fun t =>
        if t.Value < mn ∨ mx < t.Value then false else true) :
    Axis.drawAt r' cen fs base inner outer mn mx dp
      = Axis.drawAt r cen fs base inner outer mn mx dp := by
  unfold Axis.drawAt
  dsimp only
  rw [hM, hG,
    gridLoop_congr_filter r r' cen base inner (tickScale inner outer mn mx)
      mn mx (r.Tick.Marker mn mx) hG fs.dedup,
    spineOps_congr r r' cen inner outer hA hLS,
    tickOps_congr_filter r r' cen inner (tickScale inner outer mn mx) mn mx dp
      (r.Tick.Marker mn mx) hA hTLS hTLen hTLab hTPl,
    labelOps_congr r r' cen inner outer dp hA hLab]

/-- Claim C4: tick marks outside [min, max] produce no drawing call in any
pass: replacing the tick source by one that pre-discards out-of-range marks
leaves the whole render trace (and its error outcome) unchanged. -/
theorem drawAt_discards_out_of_range {Loc : Type} [DecidableEq Loc]
    (r : Axis) (cen : Point) (fs : List Loc)
    (base : Loc → Except String Arc) (inner outer mn mx : ℝ)
    (dp : TextPlacement) :
    Axis.drawAt
        { r with Tick := { r.Tick with Marker := fun lo hi =>
            (r.Tick.Marker lo hi).filter fun t =>
              if t.Value < mn ∨ mx < t.Value then false else true } }
        cen fs base inner outer mn mx dp
      = Axis.drawAt r cen fs base inner outer mn mx dp :=
  drawAt_congr_filter r _ cen fs base inner outer mn mx dp
    rfl rfl rfl rfl rfl rfl rfl rfl rfl

/-! ## Push/Pop balance -/

theorem balanced_nil : balanced [] := rfl

theorem balanced_append {l1 l2 : List CanvasOp} (h1 : balanced l1)
    (h2 : balanced l2) : balanced (l1 ++ l2) := by
  unfold balanced at *
  rw [List.countP_append, List.countP_append, h1, h2]

theorem balanced_of_no_pushpop {l : List CanvasOp}
    (h : ∀ a ∈ l, isPush a = false ∧ isPop a = false) : balanced l := by
  unfold balanced
  rw [List.countP_eq_zero.mpr fun a ha => by simp [(h a ha).1],
    List.countP_eq_zero.mpr fun a ha => by simp [(h a ha).2]]

theorem balanced_cons_of_neutral {a : CanvasOp} {l : List CanvasOp}
    (ha : isPush a = false ∧ isPop a = false) (h : balanced l) :
    balanced (a :: l) := by
  unfold balanced at *
  rw [List.countP_cons, List.countP_cons, ha.1, ha.2, h]

theorem balanced_gridOpsForLoc (r : Axis) (cen : Point) (arc : Arc)
    (inner scale mn mx : ℝ) (marks : List Tick) :
    balanced (gridOpsForLoc r cen arc inner scale mn mx marks) := by
  apply balanced_of_no_pushpop
  intro a ha
  unfold gridOpsForLoc at ha
  rcases List.mem_cons.mp ha with rfl | ha
  · exact ⟨rfl, rfl⟩
  · obtain ⟨t, _, heq⟩ := List.mem_filterMap.mp ha
    by_cases h : t.Value < mn ∨ mx < t.Value
    · rw [if_pos h] at heq; cases heq
    · rw [if_neg h] at heq
      cases heq
      exact ⟨rfl, rfl⟩

theorem balanced_gridLoop {Loc : Type} (r : Axis) (cen : Point)
    (base : Loc → Except String Arc) (inner scale mn mx : ℝ)
    (marks : List Tick) :
    ∀ locs : List Loc,
      balanced (gridLoop r cen base inner scale mn mx marks locs).1
  | [] => balanced_nil
  | loc :: locs => by
    cases hb : base loc with
    | error e => simp only [gridLoop, hb]; exact balanced_nil
    | ok arc =>
      simp only [gridLoop, hb]
      exact balanced_append
        (balanced_gridOpsForLoc r cen arc inner scale mn mx marks)
        (balanced_gridLoop r cen base inner scale mn mx marks locs)

theorem balanced_spineOps (r : Axis) (cen : Point) (inner outer : ℝ) :
    balanced (spineOps r cen inner outer) := by
  unfold spineOps
  split
  · refine balanced_cons_of_neutral ?_ ?_
    · exact ⟨rfl, rfl⟩
    · refine balanced_cons_of_neutral ?_ balanced_nil
      exact ⟨rfl, rfl⟩
  · exact balanced_nil

theorem balanced_textOps (sty : TextStyle) (rot x y xalign yalign : ℝ)
    (s : String) : balanced (textOps sty rot x y xalign yalign s) := by
  unfold textOps balanced
  split <;> rfl

theorem balanced_tickOpsForMark (r : Axis) (cen : Point)
    (inner scale mn mx : ℝ) (dp : TextPlacement) (mark : Tick) :
    balanced (tickOpsForMark r cen inner scale mn mx dp mark) := by
  unfold tickOpsForMark
  split
  · exact balanced_nil
  · dsimp only
    split
    · refine balanced_cons_of_neutral ?_ balanced_nil
      exact ⟨rfl, rfl⟩
    · refine balanced_cons_of_neutral ?_ ?_
      · exact ⟨rfl, rfl⟩
      · exact balanced_textOps _ _ _ _ _ _ _

theorem balanced_flatMap {α : Type} (g : α → List CanvasOp)
    (hg : ∀ a, balanced (g a)) :
    ∀ l : List α, balanced (l.flatMap g)
  | [] => balanced_nil
  | a :: l => by
    rw [List.flatMap_cons]
    exact balanced_append (hg a) (balanced_flatMap g hg l)

theorem balanced_tickOps (r : Axis) (cen : Point) (inner scale mn mx : ℝ)
    (dp : TextPlacement) (marks : List Tick) :
    balanced (tickOps r cen inner scale mn mx dp marks) := by
  unfold tickOps
  split
  · refine balanced_cons_of_neutral ?_ ?_
    · exact ⟨rfl, rfl⟩
    · exact balanced_flatMap _ (balanced_tickOpsForMark r cen inner scale mn mx dp) marks
  · exact balanced_nil

theorem balanced_labelOps (r : Axis) (cen : Point) (inner outer : ℝ)
    (dp : TextPlacement) : balanced (labelOps r cen inner outer dp) := by
  unfold labelOps
  split
  · exact balanced_textOps _ _ _ _ _ _ _
  · exact balanced_nil

/-- Claim C8: on every exit path — normal completion or the fatal
arc-lookup abort — the emitted trace has each `Push` matched by exactly one
`Pop`, and a rotated text draw is exactly the
Push / Translate / Rotate / draw / Pop bracket. -/
theorem drawAt_pushpop_balanced {Loc : Type} [DecidableEq Loc] (r : Axis)
    (cen : Point) (fs : List Loc) (base : Loc → Except String Arc)
    (inner outer mn mx : ℝ) (dp : TextPlacement) (sty : TextStyle)
    (rot x y xalign yalign : ℝ) (s : String) :
    (Axis.drawAt r cen fs base inner outer mn mx dp).1.countP isPush
        = (Axis.drawAt r cen fs base inner outer mn mx dp).1.countP isPop
    ∧ textOps sty rot x y xalign yalign s
        = (if rot ≠ 0 then
            [CanvasOp.Push, CanvasOp.Translate x y, CanvasOp.Rotate rot,
             CanvasOp.Translate (-x) (-y),
             CanvasOp.FillText sty x y xalign yalign s, CanvasOp.Pop]
          else [CanvasOp.FillText sty x y xalign yalign s]) := by
  constructor
  · show balanced (Axis.drawAt r cen fs base inner outer mn mx dp).1
    unfold Axis.drawAt
    dsimp only
    have hg : balanced
        (if r.Grid.Color.isSome = true ∧ r.Grid.Width ≠ 0 then
          gridLoop r cen base inner (tickScale inner outer mn mx) mn mx
            (r.Tick.Marker mn mx) fs.dedup
        else ([], none)).1 := by
      split
      · exact balanced_gridLoop r cen base inner
          (tickScale inner outer mn mx) mn mx (r.Tick.Marker mn mx) fs.dedup
      · exact balanced_nil
    split
    · exact hg
    · exact balanced_append (balanced_append (balanced_append hg
        (balanced_spineOps r cen inner outer))
        (balanced_tickOps r cen inner (tickScale inner outer mn mx) mn mx dp
          (r.Tick.Marker mn mx)))
        (balanced_labelOps r cen inner outer dp)
  · rfl

/-! ## The fatal arc-lookup error -/

/-- If some location in the list fails to resolve, the grid pass ends with
the panic message built from a failing location's lookup error. -/
theorem gridLoop_error {Loc : Type} (r : Axis) (cen : Point)
    (base : Loc → Except String Arc) (inner scale mn mx : ℝ)
    (marks : List Tick) :
    ∀ locs : List Loc, (∃ loc ∈ locs, ∃ e, base loc = Except.error e) →
      ∃ e, (∃ loc ∈ locs, base loc = Except.error e) ∧
        (gridLoop r cen base inner scale mn mx marks locs).2
          = some ("rings: no arc for feature location:" ++ e)
  | [], h => absurd h (by simp)
  | loc :: locs, h => by
    cases hb : base loc with
    | error e =>
      refine ⟨e, ⟨loc, List.mem_cons_self loc locs, hb⟩, ?_⟩
      simp only [gridLoop, hb]
    | ok arc =>
      have h' : ∃ loc' ∈ locs, ∃ e, base loc' = Except.error e := by
        obtain ⟨l', hl', e, he⟩ := h
        rcases List.mem_cons.mp hl' with rfl | hl'
        · rw [hb] at he; cases he
        · exact ⟨l', hl', e, he⟩
      obtain ⟨e, ⟨l', hl', he⟩, h2⟩ :=
        gridLoop_error r cen base inner scale mn mx marks locs h'
      refine ⟨e, ⟨l', List.mem_cons_of_mem loc hl', he⟩, ?_⟩
      simp only [gridLoop, hb]
      exact h2

/-- Claim C7: when the grid is styled and some feature location cannot be
resolved, the render aborts with the fatal message identifying the lookup
error, and the trace consists of the grid pass's partial output only — no
spine, tick or label call is made. -/
theorem drawAt_arc_error_aborts {Loc : Type} [DecidableEq Loc] (r : Axis)
    (cen : Point) (fs : List Loc) (base : Loc → Except String Arc)
    (inner outer mn mx : ℝ) (dp : TextPlacement)
    (hc : r.Grid.Color.isSome = true) (hw : r.Grid.Width ≠ 0)
    (hfail : ∃ loc ∈ fs, ∃ e, base loc = Except.error e) :
    ∃ e, (∃ loc ∈ fs, base loc = Except.error e) ∧
      Axis.drawAt r cen fs base inner outer mn mx dp =
        ((gridLoop r cen base inner (tickScale inner outer mn mx) mn mx
            (r.Tick.Marker mn mx) fs.dedup).1,
         some ("rings: no arc for feature location:" ++ e)) := by
  have hfail' : ∃ loc ∈ fs.dedup, ∃ e, base loc = Except.error e := by
    obtain ⟨loc, hl, e, he⟩ := hfail
    exact ⟨loc, List.mem_dedup.mpr hl, e, he⟩
  obtain ⟨e, ⟨loc, hl, he⟩, h2⟩ := gridLoop_error r cen base inner
    (tickScale inner outer mn mx) mn mx (r.Tick.Marker mn mx) fs.dedup hfail'
  refine ⟨e, ⟨loc, List.mem_dedup.mp hl, he⟩, ?_⟩
  unfold Axis.drawAt
  dsimp only
  rw [if_pos ⟨hc, hw⟩, h2]

/-! ## The tick-radius formula -/

/-- Claim C6: an in-range tick mark is placed, in both the grid pass and
the tick pass, at radius `inner + (value − min) * (outer − inner) /
(max − min)`: that formula equals the scaled radius the code computes, the
grid pass strokes its arc at it, and the tick pass starts its segment
at it. -/
theorem markRadius_spec (r : Axis) (cen : Point) (arc : Arc)
    (dp : TextPlacement) (inner outer mn mx : ℝ) (marks : List Tick)
    (mark : Tick) (hm : mark ∈ marks)
    (hr : ¬(mark.Value < mn ∨ mx < mark.Value)) :
    markRadius inner (tickScale inner outer mn mx) mn mark.Value
        = inner + (mark.Value - mn) * (outer - inner) / (mx - mn)
    ∧ CanvasOp.Stroke
        [PathComp.Move
           (cen.X + (Rectangular arc.Theta
              (inner + (mark.Value - mn) * (outer - inner) / (mx - mn))).X)
           (cen.Y + (Rectangular arc.Theta
              (inner + (mark.Value - mn) * (outer - inner) / (mx - mn))).Y),
         PathComp.Arc cen.X cen.Y
           (inner + (mark.Value - mn) * (outer - inner) / (mx - mn))
           arc.Theta arc.Phi]
        ∈ gridOpsForLoc r cen arc inner (tickScale inner outer mn mx) mn mx marks
    ∧ (tickOpsForMark r cen inner (tickScale inner outer mn mx) mn mx dp mark).head?
        = some (CanvasOp.Stroke
            [PathComp.Move
               (cen.X + (Rectangular r.Angle
                  (inner + (mark.Value - mn) * (outer - inner) / (mx - mn))).X)
               (cen.Y + (Rectangular r.Angle
                  (inner + (mark.Value - mn) * (outer - inner) / (mx - mn))).Y),
             PathComp.Line
               (cen.X + ((Rectangular r.Angle
                  (inner + (mark.Value - mn) * (outer - inner) / (mx - mn))).X +
                  (Rectangular (r.Angle + Complete / 4)
                    (if mark.Minor then r.Tick.Length / 2 else r.Tick.Length)).X))
               (cen.Y + ((Rectangular r.Angle
                  (inner + (mark.Value - mn) * (outer - inner) / (mx - mn))).Y +
                  (Rectangular (r.Angle + Complete / 4)
                    (if mark.Minor then r.Tick.Length / 2 else r.Tick.Length)).Y))]) := by
  have hR : markRadius inner (tickScale inner outer mn mx) mn mark.Value
      = inner + (mark.Value - mn) * (outer - inner) / (mx - mn) := by
    unfold markRadius tickScale; ring
  refine ⟨hR, ?_, ?_⟩
  · unfold gridOpsForLoc
    refine List.mem_cons_of_mem _ (List.mem_filterMap.mpr ⟨mark, hm, ?_⟩)
    rw [if_neg hr]
    dsimp only
    rw [hR]
  · unfold tickOpsForMark
    rw [if_neg hr]
    dsimp only
    rw [hR]
    split
    · rfl
    · rfl

theorem tickScale_nonneg {inner outer mn mx : ℝ} (h1 : inner ≤ outer)
    (h2 : mn < mx) : 0 ≤ tickScale inner outer mn mx :=
  div_nonneg (by linarith) (by linarith)

theorem markRadius_nonneg {inner scale mn v : ℝ} (h0 : 0 ≤ inner)
    (hs : 0 ≤ scale) (hv : mn ≤ v) : 0 ≤ markRadius inner scale mn v := by
  unfold markRadius
  have := mul_nonneg (by linarith : (0:ℝ) ≤ v - mn) hs
  linarith

theorem mem_gridProjForLoc {inner scale mn mx x : ℝ} {marks : List Tick}
    (hx : x ∈ gridProjForLoc inner scale mn mx marks) :
    ∃ mark : Tick, ¬(mark.Value < mn ∨ mx < mark.Value) ∧
      x = markRadius inner scale mn mark.Value := by
  obtain ⟨t, _, heq⟩ := List.mem_filterMap.mp hx
  by_cases h : t.Value < mn ∨ mx < t.Value
  · rw [if_pos h] at heq; cases heq
  · rw [if_neg h] at heq
    exact ⟨t, h, (Option.some.inj heq).symm⟩

theorem mem_gridProjLoop {Loc : Type} (base : Loc → Except String Arc)
    (inner scale mn mx : ℝ) (marks : List Tick) :
    ∀ (locs : List Loc) (x : ℝ),
      x ∈ (gridProjLoop base inner scale mn mx marks locs).1 →
      ∃ mark : Tick, ¬(mark.Value < mn ∨ mx < mark.Value) ∧
        x = markRadius inner scale mn mark.Value
  | [], x, hx => absurd hx (by simp [gridProjLoop])
  | loc :: locs, x, hx => by
    cases hb : base loc with
    | error e =>
      simp only [gridProjLoop, hb] at hx
      exact absurd hx (List.not_mem_nil x)
    | ok arc =>
      simp only [gridProjLoop, hb] at hx
      rcases List.mem_append.mp hx with h | h
      · exact mem_gridProjForLoc h
      · exact mem_gridProjLoop base inner scale mn mx marks locs x h

/-- Claim C9, refuted as stated: `ControlPoints` hands a caller-supplied
negative radius straight to the projection. -/
theorem controlPoints_negative_proj_radius :
    ∃ x ∈ controlPointsProjRadii bPlain 0 0 (-1) 1 0 0 0, x < 0 := by
  refine ⟨-1, ?_, by norm_num⟩
  simp [controlPointsProjRadii, bPlain]

/-- Claim C9, amended: in a render whose geometry is well-formed —
`0 ≤ inner ≤ outer`, `min < max` and a non-negative tick length — every
radius the axis render passes to the projection is non-negative.  (The
control-point generator gives no such guarantee: see the refutation.) -/
theorem drawAt_proj_radii_nonneg {Loc : Type} [DecidableEq Loc] (r : Axis)
    (fs : List Loc) (base : Loc → Except String Arc)
    (inner outer mn mx x : ℝ) (h0 : 0 ≤ inner) (h1 : inner ≤ outer)
    (h2 : mn < mx) (hL : 0 ≤ r.Tick.Length)
    (hx : x ∈ drawAtProjRadii r fs base inner outer mn mx) : 0 ≤ x := by
  have hs : 0 ≤ tickScale inner outer mn mx := tickScale_nonneg h1 h2
  have hgrid1 : ∀ y : ℝ,
      y ∈ (gridProjLoop base inner (tickScale inner outer mn mx) mn mx
        (r.Tick.Marker mn mx) fs.dedup).1 → 0 ≤ y := by
    intro y hy
    obtain ⟨mark, hout, rfl⟩ := mem_gridProjLoop base inner
      (tickScale inner outer mn mx) mn mx (r.Tick.Marker mn mx) fs.dedup y hy
    exact markRadius_nonneg h0 hs (not_lt.mp fun hlt => hout (Or.inl hlt))
  have htick : ∀ y : ℝ, y ∈ (r.Tick.Marker mn mx).flatMap (fun mark =>
      if mark.Value < mn ∨ mx < mark.Value then []
      else
        let length := if mark.Minor then r.Tick.Length / 2 else r.Tick.Length
        [length, markRadius inner (tickScale inner outer mn mx) mn mark.Value] ++
        (if mark.Minor ∨ r.Tick.Label.Color.isNone then []
         else [markRadius inner (tickScale inner outer mn mx) mn mark.Value])) →
      0 ≤ y := by
    intro y hy
    obtain ⟨mark, _, hyf⟩ := List.mem_flatMap.mp hy
    by_cases hout : mark.Value < mn ∨ mx < mark.Value
    · rw [if_pos hout] at hyf
      exact absurd hyf (List.not_mem_nil y)
    · rw [if_neg hout] at hyf
      have hmr : 0 ≤ markRadius inner (tickScale inner outer mn mx) mn mark.Value :=
        markRadius_nonneg h0 hs (not_lt.mp fun hlt => hout (Or.inl hlt))
      rcases List.mem_append.mp hyf with hyf | hyf
      · rcases List.mem_cons.mp hyf with h | hyf
        · subst h
          split
          · linarith
          · exact hL
        · rcases List.mem_cons.mp hyf with h | hyf
          · subst h; exact hmr
          · exact absurd hyf (List.not_mem_nil y)
      · split at hyf
        · exact absurd hyf (List.not_mem_nil y)
        · rcases List.mem_cons.mp hyf with h | hyf
          · subst h; exact hmr
          · exact absurd hyf (List.not_mem_nil y)
  unfold drawAtProjRadii at hx
  dsimp only at hx
  by_cases hG : r.Grid.Color.isSome = true ∧ r.Grid.Width ≠ 0
  · rw [if_pos hG] at hx
    rcases hm : (gridProjLoop base inner (tickScale inner outer mn mx) mn mx
        (r.Tick.Marker mn mx) fs.dedup).2 with _ | u
    · rw [hm] at hx
      dsimp only at hx
      rcases List.mem_append.mp hx with hx | hx
      · rcases List.mem_append.mp hx with hx | hx
        · rcases List.mem_append.mp hx with hx | hx
          · exact hgrid1 x hx
          · split at hx
            · rcases List.mem_cons.mp hx with h | hx
              · subst h; exact h0
              · rcases List.mem_cons.mp hx with h | hx
                · subst h; exact le_trans h0 h1
                · exact absurd hx (List.not_mem_nil x)
            · exact absurd hx (List.not_mem_nil x)
        · split at hx
          · exact htick x hx
          · exact absurd hx (List.not_mem_nil x)
      · split at hx
        · rcases List.mem_cons.mp hx with h | hx
          · subst h; linarith
          · exact absurd hx (List.not_mem_nil x)
        · exact absurd hx (List.not_mem_nil x)
    · rw [hm] at hx
      dsimp only at hx
      exact hgrid1 x hx
  · rw [if_neg hG] at hx
    dsimp only at hx
    rcases List.mem_append.mp hx with hx | hx
    · rcases List.mem_append.mp hx with hx | hx
      · rcases List.mem_append.mp hx with hx | hx
        · exact absurd hx (List.not_mem_nil x)
        · split at hx
          · rcases List.mem_cons.mp hx with h | hx
            · subst h; exact h0
            · rcases List.mem_cons.mp hx with h | hx
              · subst h; exact le_trans h0 h1
              · exact absurd hx (List.not_mem_nil x)
          · exact absurd hx (List.not_mem_nil x)
      · split at hx
        · exact htick x hx
        · exact absurd hx (List.not_mem_nil x)
    · split at hx
      · rcases List.mem_cons.mp hx with h | hx
        · subst h; linarith
        · exact absurd hx (List.not_mem_nil x)
      · exact absurd hx (List.not_mem_nil x)

/-! ## The claims -/

/-- Claim C1: for every pair of angles and radii, `ControlPoints` returns
exactly 3 points when `Crest` is `none` and exactly 5 when it is
configured; in both cases the first and last points are the projections of
the two endpoint pairs, so the 5-point sequence's first and last elements
equal the 3-point sequence's. -/
theorem controlPoints_arity_and_endpoints (b : Bezier) (cd : FactorDist)
    (a0 a1 r0 r1 u1 u2 u3 : ℝ) :
    (b.ControlPoints a0 a1 r0 r1 u1 u2 u3).length =
        (if b.Crest.isSome then 5 else 3)
    ∧ (b.ControlPoints a0 a1 r0 r1 u1 u2 u3).head? = some (Rectangular a0 r0)
    ∧ (b.ControlPoints a0 a1 r0 r1 u1 u2 u3).getLast? = some (Rectangular a1 r1)
    ∧ ({ b with Crest := some cd }.ControlPoints a0 a1 r0 r1 u1 u2 u3).head?
        = ({ b with Crest := none }.ControlPoints a0 a1 r0 r1 u1 u2 u3).head?
    ∧ ({ b with Crest := some cd }.ControlPoints a0 a1 r0 r1 u1 u2 u3).getLast?
        = ({ b with Crest := none }.ControlPoints a0 a1 r0 r1 u1 u2 u3).getLast? := by
  refine ⟨?_, ?_, ?_, ?_, ?_⟩ <;>
    cases hb : b.Crest <;>
      simp [Bezier.ControlPoints, hb]

/-- Claim C2: the bisecting angle used for the midpoint control point is
`((a0+a1+2π)/2) − 2π` when the absolute angular difference exceeds π, and
the simple average `(a0+a1)/2` otherwise; the midpoint control point is the
projection of that angle at the perturbed working radius. -/
theorem bisectAngle_spec (b : Bezier) (a0 a1 r0 r1 u1 u2 u3 : ℝ) :
    (π < |a1 - a0| → bisectAngle a0 a1 = (a0 + a1 + 2 * π) / 2 - 2 * π)
    ∧ (|a1 - a0| ≤ π → bisectAngle a0 a1 = (a0 + a1) / 2)
    ∧ (b.ControlPoints a0 a1 r0 r1 u1 u2 u3).get?
          (if b.Crest.isSome then 2 else 1)
        = some (Rectangular (bisectAngle a0 a1)
            ((workingRadius b a0 a1 r0 r1 u1).Perturb u2)) := by
  refine ⟨fun h => ?_, fun h => ?_, ?_⟩
  · rw [bisectAngle, if_pos h]
  · rw [bisectAngle, if_neg (not_lt.mpr h)]; ring
  · cases hb : b.Crest <;> simp [Bezier.ControlPoints, hb]

/-- Claim C2, instantiated: a wrapped pair (|4 − 0| > π) takes the wrapped
formula, a plain pair (|1 − 0| ≤ π) the simple average. -/
theorem bisectAngle_spec_witness :
    bisectAngle 0 4 = (0 + 4 + 2 * π) / 2 - 2 * π
    ∧ bisectAngle 0 1 = (0 + 1) / 2 := by
  constructor
  · exact (bisectAngle_spec bPlain 0 4 0 0 0 0 0).1
      (by rw [show |(4:ℝ) - 0| = 4 by norm_num]; linarith [Real.pi_lt_d2])
  · exact (bisectAngle_spec bPlain 0 1 0 0 0 0 0).2.1
      (by rw [show |(1:ℝ) - 0| = 1 by norm_num]; linarith [Real.pi_gt_three])

/-- Claim C3: with `Purity` configured, the working radius used for the
midpoint control point is the configured base length adjusted by
`(purityFactor − 1) * (radius − bisectRadius)`, where `bisectRadius` is the
distance from the canvas centre to the midpoint of the projected endpoints;
with `Purity` nil no adjustment is made. -/
theorem workingRadius_purity (b : Bezier) (a0 a1 r0 r1 u1 u2 u3 : ℝ) :
    (∀ pu : FactorDist, b.Purity = some pu →
      workingRadius b a0 a1 r0 r1 u1 =
        { b.Radius with
          Length := b.Radius.Length + (pu.Perturb u1 - 1) *
            (b.Radius.Length -
              hypot (((Rectangular a0 r0).X + (Rectangular a1 r1).X) / 2)
                    (((Rectangular a0 r0).Y + (Rectangular a1 r1).Y) / 2)) })
    ∧ (b.Purity = none → workingRadius b a0 a1 r0 r1 u1 = b.Radius)
    ∧ (b.ControlPoints a0 a1 r0 r1 u1 u2 u3).get?
          (if b.Crest.isSome then 2 else 1)
        = some (Rectangular (bisectAngle a0 a1)
            ((workingRadius b a0 a1 r0 r1 u1).Perturb u2)) := by
  refine ⟨fun pu hpu => ?_, fun hpu => ?_, ?_⟩
  · simp [workingRadius, hpu]
  · simp [workingRadius, hpu]
  · cases hb : b.Crest <;> simp [Bezier.ControlPoints, hb]

/-- Claim C3, instantiated on a configuration with purity set. -/
theorem workingRadius_purity_witness :
    workingRadius bPur 0 0 1 1 0 =
      { bPur.Radius with
        Length := bPur.Radius.Length + ((FactorDist.mk 2 none none).Perturb 0 - 1) *
          (bPur.Radius.Length -
            hypot (((Rectangular 0 1).X + (Rectangular 0 1).X) / 2)
                  (((Rectangular 0 1).Y + (Rectangular 0 1).Y) / 2)) } :=
  (workingRadius_purity bPur 0 0 1 1 0 0 0).1 (FactorDist.mk 2 none none) rfl

/-- Claim C5: a distribution whose `Min` and `Max` are both absent perturbs
to exactly its base magnitude, for any factor in [0, 1). -/
theorem perturb_noop (p : LengthDist) (q : FactorDist) (f : ℝ)
    (h0 : 0 ≤ f) (h1 : f < 1)
    (hpmin : p.Min = none) (hpmax : p.Max = none)
    (hqmin : q.Min = none) (hqmax : q.Max = none) :
    p.Perturb f = p.Length ∧ q.Perturb f = q.Factor := by
  simp [LengthDist.Perturb, FactorDist.Perturb, hpmin, hpmax, hqmin, hqmax]

/-- Claim C5, instantiated at `f = 1/2` on unbounded distributions. -/
theorem perturb_noop_witness :
    (0:ℝ) ≤ 1/2 ∧ (1/2:ℝ) < 1
    ∧ (LengthDist.mk 10 none none).Perturb (1/2) = 10
    ∧ (FactorDist.mk 3 none none).Perturb (1/2) = 3 := by
  have h := perturb_noop (LengthDist.mk 10 none none) (FactorDist.mk 3 none none)
    (1/2) (by norm_num) (by norm_num) rfl rfl rfl rfl
  exact ⟨by norm_num, by norm_num, h.1, h.2⟩

/-- Claim C10: with exactly one bound set, the absent bound is treated as
the multiplier 1: `Perturb f = base * (min + (max − min) * f)` with the
missing bound substituted by 1, rather than a no-op or an error. -/
theorem perturb_single_bound (p : LengthDist) (q : FactorDist) (f m M : ℝ) :
    (p.Min = some m → p.Max = none → p.Perturb f = p.Length * (m + (1 - m) * f))
    ∧ (p.Min = none → p.Max = some M → p.Perturb f = p.Length * (1 + (M - 1) * f))
    ∧ (q.Min = some m → q.Max = none → q.Perturb f = q.Factor * (m + (1 - m) * f))
    ∧ (q.Min = none → q.Max = some M → q.Perturb f = q.Factor * (1 + (M - 1) * f)) := by
  refine ⟨fun h1 h2 => ?_, fun h1 h2 => ?_, fun h1 h2 => ?_, fun h1 h2 => ?_⟩ <;>
    simp [LengthDist.Perturb, FactorDist.Perturb, h1, h2]

/-- Claim C10, instantiated: `Min = 1/2` with `Max` nil gives
`base * (1/2 + 1/2 * f)`; `Max = 2` with `Min` nil gives
`base * (1 + 1 * f)`. -/
theorem perturb_single_bound_witness :
    (LengthDist.mk 10 (some (1/2)) none).Perturb 1 = 10 * (1/2 + (1 - 1/2) * 1)
    ∧ (FactorDist.mk 4 none (some 2)).Perturb (1/2) = 4 * (1 + (2 - 1) * (1/2)) :=
  ⟨(perturb_single_bound (LengthDist.mk 10 (some (1/2)) none)
      (FactorDist.mk 4 none (some 2)) 1 (1/2) 2).1 rfl rfl,
   (perturb_single_bound (LengthDist.mk 10 (some (1/2)) none)
      (FactorDist.mk 4 none (some 2)) (1/2) (1/2) 2).2.2.2 rfl rfl⟩


/-- Claim C6, instantiated: an in-range mark at value 1/2 on the range
[0, 1] with radii [1, 3] is placed at the spec's scaled radius. -/
theorem markRadius_spec_witness :
    markRadius 1 (tickScale 1 3 0 1) 0 (Tick.mk (1/2) "t" false).Value
      = 1 + ((Tick.mk (1/2) "t" false).Value - 0) * (3 - 1) / (1 - 0) :=
  (markRadius_spec axPlain ⟨0, 0⟩ ⟨0, 1⟩ dpZero 1 3 0 1
    [Tick.mk (1/2) "t" false] (Tick.mk (1/2) "t" false)
    (List.mem_singleton.mpr rfl) (by norm_num)).1

/-- Claim C7, instantiated: a styled grid over one unresolvable location
makes the render abort. -/
theorem drawAt_arc_error_aborts_witness :
    ((Axis.drawAt axGrid ⟨0, 0⟩ [0] (fun _ : ℕ => Except.error "unresolved")
        0 1 0 1 dpZero).2).isSome = true := by
  obtain ⟨e, _, heq⟩ := drawAt_arc_error_aborts axGrid ⟨0, 0⟩ [0]
    (fun _ : ℕ => Except.error "unresolved") 0 1 0 1 dpZero rfl one_ne_zero
    ⟨0, by simp, "unresolved", rfl⟩
  rw [heq]
  rfl

/-- Claim C9 (amended), instantiated: the spine-only render over
`inner = 2`, `outer = 3` passes the non-negative radius 2. -/
theorem drawAt_proj_radii_nonneg_witness : (0:ℝ) ≤ 2 :=
  drawAt_proj_radii_nonneg axSpine ([] : List ℕ)
    (fun _ => Except.ok ⟨0, 0⟩) 2 3 0 1 2
    (by norm_num) (by norm_num) (by norm_num) (le_refl 0)
    (by simp [drawAtProjRadii, axSpine, gridProjLoop])

end Rings
